import Mathlib

/-!
Shallow embedding of the studyhub courses app (models.py, views.py):
the progress ledger (Progress model, MarkLessonCompletedView) and the
cart checkout (CheckoutView).  Times are modelled as natural-number
clocks, primary keys as naturals, Decimal prices as integers.
-/

namespace EdPro

/-! ## Binary64 model

`MarkLessonCompletedView.post` computes percentages as
`int((completed / total) * 100)`: Python's true division of two ints
produces an IEEE-754 binary64 float (correctly rounded quotient),
the product with 100 is again a correctly rounded binary64 operation,
and `int` truncates toward zero.  We model a nonnegative binary64
value exactly as `m * 2 ^ ex` with the rounded 53-bit significand
`m : Nat` and a scale `ex : Int` (the inputs here keep every value in
the normal range, so overflow and subnormals do not arise). -/

structure Fp where
  m : Nat
  ex : Int
deriving Repr, DecidableEq

/-- Fuel-driven floor of log2 (structural recursion so that the kernel
can evaluate it). -/
def log2fuel : Nat → Nat → Nat
  | 0, _ => 0
  | fuel + 1, n => if n < 2 then 0 else log2fuel fuel (n / 2) + 1

/-- `natLog2 n` is the floor of log2 of `n` (0 for `n = 0`). -/
def natLog2 (n : Nat) : Nat :=
  log2fuel n n

/-- Floor of log2 of the rational `a / b` (for `a, b > 0`): the unique
`e` with `2 ^ e ≤ a / b < 2 ^ (e + 1)`. -/
def ratLog2 (a b : Nat) : Int :=
  let la := natLog2 a
  let lb := natLog2 b
  if lb ≤ la then
    if b * 2 ^ (la - lb) ≤ a then ((la - lb : Nat) : Int) else ((la - lb : Nat) : Int) - 1
  else
    if b ≤ a * 2 ^ (lb - la) then -((lb - la : Nat) : Int) else -((lb - la : Nat) : Int) - 1

/-- Round the rational `a / b` (`b > 0`) to the nearest binary64 value
(round-to-nearest, ties-to-even), i.e. to 53 significant bits. -/
def roundFp (a b : Nat) : Fp :=
  if a = 0 then ⟨0, 0⟩
  else
    let e := ratLog2 a b
    let s : Int := 52 - e
    let num := if 0 ≤ s then a * 2 ^ s.toNat else a
    let den := if 0 ≤ s then b else b * 2 ^ (-s).toNat
    let q := num / den
    let r := num % den
    let m :=
      if 2 * r < den then q
      else if den < 2 * r then q + 1
      else if q % 2 = 0 then q else q + 1
    ⟨m, e - 52⟩

/-- Python float multiplication `x * 100`: the exact product rounded
back to binary64. -/
def mul100 (x : Fp) : Fp :=
  if 0 ≤ x.ex then roundFp (x.m * 100 * 2 ^ x.ex.toNat) 1
  else roundFp (x.m * 100) (2 ^ (-x.ex).toNat)

/-- Python `int(...)` on a nonnegative float: truncation toward zero. -/
def Fp.trunc (x : Fp) : Nat :=
  if 0 ≤ x.ex then x.m * 2 ^ x.ex.toNat else x.m / 2 ^ (-x.ex).toNat

/-- The percentage computation inlined in `MarkLessonCompletedView.post`:
`int((completed / total) * 100) if total > 0 else 0`, with Python's
int-division-to-float semantics. -/
def pyPct (completed total : Nat) : Nat :=
  if 0 < total then (mul100 (roundFp completed total)).trunc else 0

/-! ## Data model (models.py)

Primary keys and users are naturals; `auto_now`/`auto_now_add` audit
columns, titles and ordering fields play no role in the claims and are
omitted.  Django's foreign keys always resolve (enforced by the
store), which the well-formedness hypotheses of the theorems make
explicit where it matters. -/

/-- A course module (model `Module`): `course` is the owning course's id. -/
structure Module where
  id : Nat
  course : Nat
deriving Repr, DecidableEq

/-- A lesson (model `Lesson`): `module` is the owning module's id;
`is_published` is the visibility flag (models.py lines 397-401). -/
structure Lesson where
  id : Nat
  module : Nat
  is_published : Bool
deriving Repr, DecidableEq

/-- A per-user, per-lesson progress row (model `Progress`):
`completed_at` is the optional completion timestamp. -/
structure Progress where
  user : Nat
  lesson : Nat
  completed : Bool
  completed_at : Option Nat
deriving Repr, DecidableEq

/-- `Progress.save` (models.py lines 443-448): stamp `completed_at`
with the current time when the row is completed and the timestamp is
unset (`not self.completed_at` — `None` is the only falsy value a
nullable datetime takes); clear it whenever the row is not completed. -/
def Progress.save (now : Nat) (p : Progress) : Progress :=
  if p.completed && p.completed_at.isNone then { p with completed_at := some now }
  else if !p.completed then { p with completed_at := none }
  else p

/-- The relational store the progress endpoint touches: catalog rows,
`Enrollment` rows as (user, course) pairs, and `Progress` rows. -/
structure Db where
  modules : List Module
  lessons : List Lesson
  enrollments : List (Nat × Nat)
  progresses : List Progress
deriving Repr, DecidableEq

/-- `Lesson.objects.get(pk=lid)`. -/
def Db.findLesson (db : Db) (lid : Nat) : Option Lesson :=
  db.lessons.find? (fun l => l.id == lid)

/-- `Module.objects.get(pk=mid)`. -/
def Db.findModule (db : Db) (mid : Nat) : Option Module :=
  db.modules.find? (fun m => m.id == mid)

/-- `lesson.module.course`: the id of the course owning a lesson.  The
module foreign key always resolves in the store; the default is
unreachable on well-formed data. -/
def Db.lessonCourseId (db : Db) (lesson : Lesson) : Nat :=
  ((db.findModule lesson.module).map (fun m => m.course)).getD 0

/-- `request.user.enrollment_set.filter(course=lesson.module.course).exists()`
(the `hasattr` probe on line 999 is always true for a `User` instance). -/
def Db.enrolledFor (db : Db) (u : Nat) (lesson : Lesson) : Bool :=
  db.enrollments.any (fun e => e.1 == u && e.2 == db.lessonCourseId lesson)

/-- `Progress.objects.get(user=u, lesson=lid)` — the lookup get_or_create
performs. -/
def Db.findProgress (db : Db) (u lid : Nat) : Option Progress :=
  db.progresses.find? (fun p => p.user == u && p.lesson == lid)

/-- The module id a progress row's lesson belongs to (join
`lesson__module`). -/
def Db.lessonModuleOf (db : Db) (lid : Nat) : Option Nat :=
  (db.findLesson lid).map (fun l => l.module)

/-- The course id a progress row's lesson belongs to (join
`lesson__module__course`). -/
def Db.lessonCourseOf (db : Db) (lid : Nat) : Option Nat :=
  (db.lessonModuleOf lid).bind (fun mid => (db.findModule mid).map (fun m => m.course))

/-- `Progress.objects.filter(user=u, lesson__module=mid, completed=True).count()`
(views.py lines 1020-1024). -/
def Db.moduleCompleted (db : Db) (u mid : Nat) : Nat :=
  (db.progresses.filter (fun p =>
    p.user == u && p.completed && db.lessonModuleOf p.lesson == some mid)).length

/-- `module.lessons.count()` (views.py line 1025): every lesson of the
module, published or not. -/
def Db.moduleTotal (db : Db) (mid : Nat) : Nat :=
  (db.lessons.filter (fun l => l.module == mid)).length

/-- `Progress.objects.filter(user=u, lesson__module__course=cid, completed=True).count()`
(views.py lines 1029-1033). -/
def Db.courseCompleted (db : Db) (u cid : Nat) : Nat :=
  (db.progresses.filter (fun p =>
    p.user == u && p.completed && db.lessonCourseOf p.lesson == some cid)).length

/-- `Lesson.objects.filter(module__course=cid).count()` (views.py
line 1034): every lesson of the course, published or not. -/
def Db.courseTotal (db : Db) (cid : Nat) : Nat :=
  (db.lessons.filter (fun l =>
    (db.findModule l.module).map (fun m => m.course) == some cid)).length

/-- computeModuleRollup: (completed, total, percentage) as inlined in
views.py lines 1019-1026. -/
def Db.moduleRollup (db : Db) (u mid : Nat) : Nat × Nat × Nat :=
  let c := db.moduleCompleted u mid
  let t := db.moduleTotal mid
  (c, t, pyPct c t)

/-- computeCourseRollup: (completed, total, percentage) as inlined in
views.py lines 1028-1035. -/
def Db.courseRollup (db : Db) (u cid : Nat) : Nat × Nat × Nat :=
  let c := db.courseCompleted u cid
  let t := db.courseTotal cid
  (c, t, pyPct c t)

/-- The JSON payload of a successful toggle (views.py lines 1037-1048). -/
structure ToggleOk where
  completed : Bool
  completed_at : Option Nat
  module_progress : Nat
  course_progress : Nat
  module_completed : Nat
  module_total : Nat
  course_completed : Nat
  course_total : Nat
  message : String
deriving Repr, DecidableEq

/-- Responses the endpoint can produce: the JSON error responses of
`post`, the login redirect `LoginRequiredMixin` issues, and success. -/
inductive ToggleResponse where
  | badRequest (error : String)
  | notFound
  | forbidden (error : String)
  | redirectToLogin
  | ok (payload : ToggleOk)
deriving Repr, DecidableEq

/-- HTTP status of each response. -/
def ToggleResponse.status : ToggleResponse → Nat
  | .badRequest _ => 400
  | .notFound => 404
  | .forbidden _ => 403
  | .redirectToLogin => 302
  | .ok _ => 200

def ToggleResponse.isOk : ToggleResponse → Bool
  | .ok _ => true
  | _ => false

/-- The saved `Progress` row `get_or_create` plus `progress.save()`
produce (views.py lines 1004-1013): create with
`defaults={'completed': completed}` when absent (`save` runs on
creation), otherwise update `completed` and save. -/
def Db.toggledProgress (db : Db) (u lid : Nat) (completed : Bool) (now : Nat) : Progress :=
  Progress.save now
    (match db.findProgress u lid with
     | none => ⟨u, lid, completed, none⟩
     | some p => { p with completed := completed })

/-- The store after the upsert of views.py lines 1004-1013: the new
row is appended when absent, otherwise the matching row is replaced. -/
def Db.toggleStore (db : Db) (u lid : Nat) (completed : Bool) (now : Nat) : Db :=
  match db.findProgress u lid with
  | none => { db with progresses := db.progresses ++ [db.toggledProgress u lid completed now] }
  | some _ => { db with progresses := db.progresses.map (fun q =>
      if q.user == u && q.lesson == lid then db.toggledProgress u lid completed now else q) }

namespace MarkLessonCompletedView

/-- The success payload (views.py lines 1037-1048), computed from the
post-upsert store. -/
def payloadOf (db : Db) (u lid : Nat) (lesson : Lesson) (completed : Bool) (now : Nat) :
    ToggleOk :=
  let prog := db.toggledProgress u lid completed now
  let db' := db.toggleStore u lid completed now
  let mr := db'.moduleRollup u lesson.module
  let cr := db'.courseRollup u (db.lessonCourseId lesson)
  ⟨prog.completed, prog.completed_at, mr.2.2, cr.2.2, mr.1, mr.2.1, cr.1, cr.2.1,
   if completed then "Урок отмечен как пройденный" else "Урок отмечен как непройденный"⟩

/-- `MarkLessonCompletedView.post` (views.py lines 985-1048).
`userId` is the request's user context (`none` = anonymous);
`lesson_id` and `completedParam` are the POST parameters (`completed`
is the string comparison `== 'true'`); `now` is the request clock.
Returns the response and the resulting store. -/
def post (db : Db) (userId : Option Nat) (lesson_id : Option Nat)
    (completedParam : String) (now : Nat) : ToggleResponse × Db :=
  let completed := completedParam == "true"
  match lesson_id with
  | none => (.badRequest "Не указан ID урока", db)
  | some lid =>
    match db.findLesson lid with
    | none => (.notFound, db)
    | some lesson =>
      match userId with
      | none => (.forbidden "Требуется авторизация", db)
      | some u =>
        if db.enrolledFor u lesson = false then
          (.forbidden "Вы не записаны на этот курс", db)
        else
          (.ok (payloadOf db u lid lesson completed now),
           db.toggleStore u lid completed now)

/-- The endpoint as routed: `LoginRequiredMixin` answers unauthenticated
requests with a redirect to the login page before `post` runs. -/
def handle (db : Db) (userId : Option Nat) (lesson_id : Option Nat)
    (completedParam : String) (now : Nat) : ToggleResponse × Db :=
  match userId with
  | none => (.redirectToLogin, db)
  | some u => post db (some u) lesson_id completedParam now

end MarkLessonCompletedView

/-- One request to the toggle endpoint. -/
structure ToggleReq where
  userId : Option Nat
  lesson_id : Option Nat
  completedParam : String
  now : Nat

/-- Replay a sequence of requests against the endpoint. -/
def applyToggles (db : Db) : List ToggleReq → Db
  | [] => db
  | r :: rs =>
    applyToggles (MarkLessonCompletedView.handle db r.userId r.lesson_id r.completedParam r.now).2 rs

/-- The ProgressRecord invariant: `completed_at` is set iff `completed`. -/
def Db.progressInv (db : Db) : Prop :=
  ∀ p ∈ db.progresses, p.completed_at.isSome = p.completed

/-! ## Cart checkout (CheckoutView, views.py lines 809-846)

The session cart is a list of course ids; `Decimal` prices are
modelled as exact integers (checkout only copies them or replaces
them by zero). -/

/-- A course, restricted to the fields checkout reads. -/
structure Course where
  id : Nat
  price : Int
  is_free : Bool
  is_published : Bool
deriving Repr, DecidableEq

/-- An `Order` row; checkout creates it with `status='paid'`. -/
structure Order where
  id : Nat
  user : Nat
  status : String
deriving Repr, DecidableEq

/-- An `OrderItem` row: the order's id, the course's id and the price
captured at purchase time. -/
structure OrderItem where
  order : Nat
  course : Nat
  price : Int
deriving Repr, DecidableEq

/-- The store checkout touches. -/
structure ShopDb where
  courses : List Course
  orders : List Order
  items : List OrderItem
  enrollments : List (Nat × Nat)
deriving Repr, DecidableEq

/-- `CheckoutView.get_cart_courses` (views.py lines 813-815):
`Course.objects.filter(id__in=cart_ids, is_published=True)` — only
published courses whose id the cart holds; dangling ids match nothing. -/
def getCartCourses (db : ShopDb) (cart : List Nat) : List Course :=
  db.courses.filter (fun c => cart.contains c.id && c.is_published)

/-- Responses of `CheckoutView.post`: the warning redirect back to the
cart, or the success redirect to the order history. -/
inductive CheckoutResponse where
  | redirectCartWithWarning (msg : String)
  | redirectOrdersHistory (orderId : Nat)
deriving Repr, DecidableEq

/-- A fresh auto-increment primary key for the new order. -/
def newOrderId (db : ShopDb) : Nat :=
  (db.orders.map (fun o => o.id)).foldr max 0 + 1

/-- One iteration of the checkout loop (views.py lines 833-840): create
the `OrderItem` priced at zero for free courses, then
`Enrollment.objects.get_or_create(user=u, course=course)`. -/
def checkoutStep (u oid : Nat) (acc : ShopDb) (c : Course) : ShopDb :=
  if (u, c.id) ∈ acc.enrollments then
    { acc with items := acc.items ++ [⟨oid, c.id, if c.is_free then 0 else c.price⟩] }
  else
    { acc with items := acc.items ++ [⟨oid, c.id, if c.is_free then 0 else c.price⟩],
               enrollments := acc.enrollments ++ [(u, c.id)] }

namespace CheckoutView

/-- `CheckoutView.post` (views.py lines 825-846): read the published
cart courses; an empty result yields the warning redirect with nothing
changed (the cart survives); otherwise create one `Order` immediately
marked paid, run the per-course loop, and clear the cart.  Returns the
response, the resulting store and the resulting cart. -/
def post (db : ShopDb) (cart : List Nat) (u : Nat) :
    CheckoutResponse × ShopDb × List Nat :=
  let courses := getCartCourses db cart
  if courses.isEmpty then
    (.redirectCartWithWarning "Ваша корзина пуста.", db, cart)
  else
    let oid := newOrderId db
    let db1 := { db with orders := db.orders ++ [⟨oid, u, "paid"⟩] }
    let db2 := courses.foldl (checkoutStep u oid) db1
    (.redirectOrdersHistory oid, db2, [])

end CheckoutView

/-! ## Lemmas about `Progress.save` -/

lemma save_user (now : Nat) (p : Progress) : (Progress.save now p).user = p.user := by
  unfold Progress.save
  split <;> try split
  all_goals rfl

lemma save_lesson (now : Nat) (p : Progress) : (Progress.save now p).lesson = p.lesson := by
  unfold Progress.save
  split <;> try split
  all_goals rfl

lemma save_completed (now : Nat) (p : Progress) :
    (Progress.save now p).completed = p.completed := by
  unfold Progress.save
  split <;> try split
  all_goals rfl

/-- After any save, `completed_at` is set exactly when `completed`. -/
lemma save_invariant (now : Nat) (p : Progress) :
    (Progress.save now p).completed_at.isSome = (Progress.save now p).completed := by
  cases p with
  | mk u l c a => cases c <;> cases a <;> simp [Progress.save]

/-- A completed row whose timestamp is already set is left untouched. -/
lemma save_of_completed_some (now : Nat) (p : Progress)
    (hc : p.completed = true) (ha : p.completed_at.isSome = true) :
    Progress.save now p = p := by
  cases p with
  | mk u l c a => cases a <;> simp_all [Progress.save]

/-- Saving a not-completed row clears its timestamp unconditionally. -/
lemma save_of_not_completed (now : Nat) (p : Progress) (hc : p.completed = false) :
    Progress.save now p = { p with completed_at := none } := by
  cases p with
  | mk u l c a => simp_all [Progress.save]

/-! ## Lemmas about `find?` under the upsert -/

lemma find?_cons_eq {α} (p : α → Bool) (a : α) (l : List α) :
    (a :: l).find? p = if p a then some a else l.find? p := by
  rw [List.find?_cons]
  split <;> simp_all

lemma find?_append_single {α} (p : α → Bool) (l : List α) (a : α)
    (h : l.find? p = none) (ha : p a = true) : (l ++ [a]).find? p = some a := by
  induction l with
  | nil => simp [find?_cons_eq, ha]
  | cons x xs ih =>
    rw [find?_cons_eq] at h
    by_cases hx : p x
    · rw [if_pos hx] at h
      exact absurd h (by simp)
    · rw [if_neg hx] at h
      rw [List.cons_append, find?_cons_eq, if_neg hx]
      exact ih h

lemma find?_map_update {α} (p : α → Bool) (l : List α) (a r : α)
    (h : l.find? p = some a) (hr : p r = true) :
    (l.map (fun x => if p x then r else x)).find? p = some r := by
  induction l with
  | nil => simp [List.find?] at h
  | cons x xs ih =>
    rw [find?_cons_eq] at h
    simp only [List.map_cons]
    by_cases hx : p x
    · rw [if_pos hx, find?_cons_eq, if_pos hr]
    · rw [if_neg hx] at h
      rw [if_neg hx, find?_cons_eq, if_neg hx]
      exact ih h

/-! ## Lemmas about the toggle upsert -/

lemma toggledProgress_user (db : Db) (u lid : Nat) (c : Bool) (now : Nat) :
    (db.toggledProgress u lid c now).user = u := by
  unfold Db.toggledProgress
  rw [save_user]
  cases h : db.findProgress u lid with
  | none => rfl
  | some p =>
    have hp := List.find?_some h
    simp only [Bool.and_eq_true, beq_iff_eq] at hp
    exact hp.1

lemma toggledProgress_lesson (db : Db) (u lid : Nat) (c : Bool) (now : Nat) :
    (db.toggledProgress u lid c now).lesson = lid := by
  unfold Db.toggledProgress
  rw [save_lesson]
  cases h : db.findProgress u lid with
  | none => rfl
  | some p =>
    have hp := List.find?_some h
    simp only [Bool.and_eq_true, beq_iff_eq] at hp
    exact hp.2

lemma toggledProgress_completed (db : Db) (u lid : Nat) (c : Bool) (now : Nat) :
    (db.toggledProgress u lid c now).completed = c := by
  unfold Db.toggledProgress
  rw [save_completed]
  cases h : db.findProgress u lid <;> rfl

lemma toggledProgress_matches (db : Db) (u lid : Nat) (c : Bool) (now : Nat) :
    ((db.toggledProgress u lid c now).user == u
      && (db.toggledProgress u lid c now).lesson == lid) = true := by
  simp [toggledProgress_user, toggledProgress_lesson]

lemma toggleStore_modules (db : Db) (u lid : Nat) (c : Bool) (now : Nat) :
    (db.toggleStore u lid c now).modules = db.modules := by
  unfold Db.toggleStore
  cases h : db.findProgress u lid <;> rfl

lemma toggleStore_lessons (db : Db) (u lid : Nat) (c : Bool) (now : Nat) :
    (db.toggleStore u lid c now).lessons = db.lessons := by
  unfold Db.toggleStore
  cases h : db.findProgress u lid <;> rfl

lemma toggleStore_enrollments (db : Db) (u lid : Nat) (c : Bool) (now : Nat) :
    (db.toggleStore u lid c now).enrollments = db.enrollments := by
  unfold Db.toggleStore
  cases h : db.findProgress u lid <;> rfl

/-- After the upsert, the (user, lesson) lookup finds exactly the saved row. -/
lemma findProgress_toggleStore (db : Db) (u lid : Nat) (c : Bool) (now : Nat) :
    (db.toggleStore u lid c now).findProgress u lid
      = some (db.toggledProgress u lid c now) := by
  unfold Db.toggleStore
  cases h : db.findProgress u lid with
  | none =>
    show ((db.progresses ++ [db.toggledProgress u lid c now]).find? _) = _
    exact find?_append_single _ _ _ h (toggledProgress_matches db u lid c now)
  | some p =>
    show ((db.progresses.map _).find? _) = _
    exact find?_map_update _ _ p _ h (toggledProgress_matches db u lid c now)

lemma findLesson_toggleStore (db : Db) (u lid : Nat) (c : Bool) (now : Nat) (x : Nat) :
    (db.toggleStore u lid c now).findLesson x = db.findLesson x := by
  unfold Db.findLesson
  rw [toggleStore_lessons]

lemma lessonCourseId_toggleStore (db : Db) (u lid : Nat) (c : Bool) (now : Nat)
    (lesson : Lesson) :
    (db.toggleStore u lid c now).lessonCourseId lesson = db.lessonCourseId lesson := by
  unfold Db.lessonCourseId Db.findModule
  rw [toggleStore_modules]

lemma enrolledFor_toggleStore (db : Db) (u lid : Nat) (c : Bool) (now : Nat)
    (v : Nat) (lesson : Lesson) :
    (db.toggleStore u lid c now).enrolledFor v lesson = db.enrolledFor v lesson := by
  unfold Db.enrolledFor
  rw [toggleStore_enrollments, lessonCourseId_toggleStore]

/-- `post` on a request that passes every guard: the lesson exists and
the user is enrolled in its course. -/
lemma post_success (db : Db) (u lid : Nat) (lesson : Lesson) (cp : String) (now : Nat)
    (hl : db.findLesson lid = some lesson) (he : db.enrolledFor u lesson = true) :
    MarkLessonCompletedView.post db (some u) (some lid) cp now =
      (.ok (MarkLessonCompletedView.payloadOf db u lid lesson (cp == "true") now),
       db.toggleStore u lid (cp == "true") now) := by
  unfold MarkLessonCompletedView.post
  simp only [hl, he]
  simp

/-- `handle` agrees with `post` once a user context is present. -/
lemma handle_some (db : Db) (u : Nat) (lo : Option Nat) (cp : String) (now : Nat) :
    MarkLessonCompletedView.handle db (some u) lo cp now
      = MarkLessonCompletedView.post db (some u) lo cp now := rfl

/-! ## Preservation of the `completed_at` invariant -/

lemma toggleStore_inv (db : Db) (u lid : Nat) (c : Bool) (now : Nat)
    (h : db.progressInv) : (db.toggleStore u lid c now).progressInv := by
  intro p hp
  unfold Db.toggleStore at hp
  cases hfp : db.findProgress u lid with
  | none =>
    rw [hfp] at hp
    simp only at hp
    rcases List.mem_append.mp hp with hold | hnew
    · exact h p hold
    · have := List.mem_singleton.mp hnew
      subst this
      unfold Db.toggledProgress
      rw [save_invariant]
  | some q =>
    rw [hfp] at hp
    simp only at hp
    rcases List.mem_map.mp hp with ⟨r, hr, hrp⟩
    by_cases hc : (r.user == u && r.lesson == lid) = true
    · rw [if_pos hc] at hrp
      subst hrp
      unfold Db.toggledProgress
      rw [save_invariant]
    · rw [if_neg hc] at hrp
      subst hrp
      exact h r hr

lemma post_inv (db : Db) (uo lo : Option Nat) (cp : String) (now : Nat)
    (h : db.progressInv) :
    ((MarkLessonCompletedView.post db uo lo cp now).2).progressInv := by
  unfold MarkLessonCompletedView.post
  cases lo with
  | none => exact h
  | some lid =>
    cases hl : db.findLesson lid with
    | none => simp only [hl]; exact h
    | some lesson =>
      cases uo with
      | none => simp only [hl]; exact h
      | some u =>
        by_cases he : db.enrolledFor u lesson = false
        · simp only [hl, he, if_pos]; exact h
        · simp only [hl, if_neg he]
          exact toggleStore_inv db u lid (cp == "true") now h

lemma handle_inv (db : Db) (uo lo : Option Nat) (cp : String) (now : Nat)
    (h : db.progressInv) :
    ((MarkLessonCompletedView.handle db uo lo cp now).2).progressInv := by
  cases uo with
  | none => exact h
  | some u => exact post_inv db (some u) lo cp now h

lemma applyToggles_inv (ops : List ToggleReq) (db : Db) (h : db.progressInv) :
    (applyToggles db ops).progressInv := by
  induction ops generalizing db with
  | nil => exact h
  | cons r rs ih =>
    exact ih _ (handle_inv db r.userId r.lesson_id r.completedParam r.now h)

/-! ## Lemmas about the checkout loop -/

/-- Occurrences of an enrollment pair in a list. -/
def pairCount (l : List (Nat × Nat)) (q : Nat × Nat) : Nat :=
  (l.filter (fun e => decide (e = q))).length

lemma pairCount_append (l1 l2 : List (Nat × Nat)) (q : Nat × Nat) :
    pairCount (l1 ++ l2) q = pairCount l1 q + pairCount l2 q := by
  unfold pairCount
  rw [List.filter_append, List.length_append]

lemma pairCount_singleton (p q : Nat × Nat) :
    pairCount [p] q = if p = q then 1 else 0 := by
  unfold pairCount
  by_cases h : p = q <;> simp [h]

lemma pairCount_eq_zero_of_not_mem (l : List (Nat × Nat)) (q : Nat × Nat)
    (h : q ∉ l) : pairCount l q = 0 := by
  unfold pairCount
  rw [List.length_eq_zero, List.filter_eq_nil_iff]
  intro a ha
  simp only [decide_eq_true_eq]
  intro haq
  exact h (haq ▸ ha)

lemma pairCount_pos_of_mem (l : List (Nat × Nat)) (q : Nat × Nat)
    (h : q ∈ l) : 1 ≤ pairCount l q := by
  unfold pairCount
  have hm : q ∈ l.filter (fun e => decide (e = q)) :=
    List.mem_filter.mpr ⟨h, by exact decide_eq_true rfl⟩
  exact List.length_pos.mpr (List.ne_nil_of_mem hm)

lemma checkoutStep_courses (u oid : Nat) (acc : ShopDb) (c : Course) :
    (checkoutStep u oid acc c).courses = acc.courses := by
  unfold checkoutStep
  by_cases h : (u, c.id) ∈ acc.enrollments
  · rw [if_pos h]
  · rw [if_neg h]

lemma checkoutStep_orders (u oid : Nat) (acc : ShopDb) (c : Course) :
    (checkoutStep u oid acc c).orders = acc.orders := by
  unfold checkoutStep
  by_cases h : (u, c.id) ∈ acc.enrollments
  · rw [if_pos h]
  · rw [if_neg h]

lemma checkoutStep_items (u oid : Nat) (acc : ShopDb) (c : Course) :
    (checkoutStep u oid acc c).items
      = acc.items ++ [⟨oid, c.id, if c.is_free then 0 else c.price⟩] := by
  unfold checkoutStep
  by_cases h : (u, c.id) ∈ acc.enrollments
  · rw [if_pos h]
  · rw [if_neg h]

lemma checkoutStep_count_self (u oid : Nat) (acc : ShopDb) (c : Course) :
    pairCount (checkoutStep u oid acc c).enrollments (u, c.id)
      = max 1 (pairCount acc.enrollments (u, c.id)) := by
  unfold checkoutStep
  by_cases h : (u, c.id) ∈ acc.enrollments
  · rw [if_pos h]
    have h1 := pairCount_pos_of_mem _ _ h
    show pairCount acc.enrollments (u, c.id) = _
    omega
  · rw [if_neg h]
    show pairCount (acc.enrollments ++ [(u, c.id)]) (u, c.id) = _
    rw [pairCount_append, pairCount_singleton, pairCount_eq_zero_of_not_mem _ _ h]
    simp

lemma checkoutStep_count_other (u oid : Nat) (acc : ShopDb) (c : Course)
    (p : Nat × Nat) (hp : p ≠ (u, c.id)) :
    pairCount (checkoutStep u oid acc c).enrollments p
      = pairCount acc.enrollments p := by
  unfold checkoutStep
  by_cases h : (u, c.id) ∈ acc.enrollments
  · rw [if_pos h]
  · rw [if_neg h]
    show pairCount (acc.enrollments ++ [(u, c.id)]) p = _
    rw [pairCount_append, pairCount_singleton, if_neg (fun he => hp he.symm)]
    omega

/-- Effect of the whole loop on the occurrence count of an enrollment
pair: pairs for loop courses end with `max 1` their previous count
(created once or found), all others are untouched. -/
lemma foldl_checkout_count (u oid : Nat) (cs : List Course) (acc : ShopDb)
    (p : Nat × Nat) :
    pairCount (cs.foldl (checkoutStep u oid) acc).enrollments p
      = if ∃ c ∈ cs, p = (u, c.id) then max 1 (pairCount acc.enrollments p)
        else pairCount acc.enrollments p := by
  induction cs generalizing acc with
  | nil => simp
  | cons c cs ih =>
    rw [List.foldl_cons, ih]
    by_cases hc : p = (u, c.id)
    · rw [hc, checkoutStep_count_self]
      by_cases hcs : ∃ c' ∈ cs, ((u, c.id) : Nat × Nat) = (u, c'.id)
      · rw [if_pos hcs, if_pos ⟨c, List.mem_cons_self c cs, rfl⟩]
        omega
      · rw [if_neg hcs, if_pos ⟨c, List.mem_cons_self c cs, rfl⟩]
    · rw [checkoutStep_count_other u oid acc c p hc]
      by_cases hcs : ∃ c' ∈ cs, p = (u, c'.id)
      · rcases hcs with ⟨c', hc', he⟩
        rw [if_pos ⟨c', hc', he⟩, if_pos ⟨c', List.mem_cons_of_mem c hc', he⟩]
      · rw [if_neg hcs, if_neg ?_]
        rintro ⟨c', hc', he⟩
        rcases List.mem_cons.mp hc' with h1 | h1
        · exact hc (h1 ▸ he)
        · exact hcs ⟨c', h1, he⟩

lemma foldl_checkout_orders (u oid : Nat) (cs : List Course) (acc : ShopDb) :
    (cs.foldl (checkoutStep u oid) acc).orders = acc.orders := by
  induction cs generalizing acc with
  | nil => rfl
  | cons c cs ih => rw [List.foldl_cons, ih, checkoutStep_orders]

lemma foldl_checkout_courses (u oid : Nat) (cs : List Course) (acc : ShopDb) :
    (cs.foldl (checkoutStep u oid) acc).courses = acc.courses := by
  induction cs generalizing acc with
  | nil => rfl
  | cons c cs ih => rw [List.foldl_cons, ih, checkoutStep_courses]

lemma foldl_checkout_items (u oid : Nat) (cs : List Course) (acc : ShopDb) :
    (cs.foldl (checkoutStep u oid) acc).items
      = acc.items ++ cs.map (fun c => ⟨oid, c.id, if c.is_free then 0 else c.price⟩) := by
  induction cs generalizing acc with
  | nil => simp
  | cons c cs ih =>
    rw [List.foldl_cons, ih, checkoutStep_items, List.map_cons, List.append_assoc,
      List.singleton_append]

/-! ## Remaining small lemmas -/

lemma toggledProgress_invariant (db : Db) (u lid : Nat) (c : Bool) (now : Nat) :
    (db.toggledProgress u lid c now).completed_at.isSome
      = (db.toggledProgress u lid c now).completed := by
  unfold Db.toggledProgress
  exact save_invariant _ _

lemma set_completed_true_of (p : Progress) (h : p.completed = true) :
    ({ p with completed := true } : Progress) = p := by
  cases p with
  | mk u l c a => simp only at h; rw [h]

lemma progress_clear (p : Progress) :
    ({ { p with completed := false } with completed_at := none } : Progress)
      = ⟨p.user, p.lesson, false, none⟩ := by
  cases p with
  | mk u l c a => rfl

lemma mem_of_pairCount_pos (l : List (Nat × Nat)) (q : Nat × Nat)
    (h : 1 ≤ pairCount l q) : q ∈ l := by
  unfold pairCount at h
  have hne : l.filter (fun e => decide (e = q)) ≠ [] := by
    intro hnil
    rw [hnil] at h
    simp at h
  rcases List.exists_mem_of_ne_nil _ hne with ⟨a, ha⟩
  have hm := List.mem_filter.mp ha
  have heq : a = q := of_decide_eq_true hm.2
  exact heq ▸ hm.1

/-- The store with every lesson's published flag rewritten by `f`
(nothing else changed). -/
def Db.setPublished (db : Db) (f : Lesson → Bool) : Db :=
  { db with lessons := db.lessons.map (fun l => { l with is_published := f l }) }

lemma moduleTotal_setPublished (db : Db) (f : Lesson → Bool) (mid : Nat) :
    (db.setPublished f).moduleTotal mid = db.moduleTotal mid := by
  unfold Db.setPublished Db.moduleTotal
  simp only
  rw [List.filter_map, List.length_map]
  congr 1

lemma courseTotal_setPublished (db : Db) (f : Lesson → Bool) (cid : Nat) :
    (db.setPublished f).courseTotal cid = db.courseTotal cid := by
  unfold Db.setPublished Db.courseTotal
  simp only
  rw [List.filter_map, List.length_map]
  congr 1

/-- Checkout on a cart that yields at least one published course. -/
lemma checkout_post_of_ne (db : ShopDb) (cart : List Nat) (u : Nat)
    (hne : getCartCourses db cart ≠ []) :
    CheckoutView.post db cart u
      = (.redirectOrdersHistory (newOrderId db),
         (getCartCourses db cart).foldl (checkoutStep u (newOrderId db))
           { db with orders := db.orders ++ [⟨newOrderId db, u, "paid"⟩] },
         []) := by
  have hie : (getCartCourses db cart).isEmpty = false := by
    rw [List.isEmpty_eq_false]; exact hne
  unfold CheckoutView.post
  simp only [hie, Bool.false_eq_true, if_false]

/-- Checkout on a cart that yields no published course. -/
lemma checkout_post_of_empty (db : ShopDb) (cart : List Nat) (u : Nat)
    (h : getCartCourses db cart = []) :
    CheckoutView.post db cart u
      = (.redirectCartWithWarning "Ваша корзина пуста.", db, cart) := by
  unfold CheckoutView.post
  simp only [h, List.isEmpty_nil, if_true]

/-! ## Example stores used by witnesses and counterexamples -/

/-- One course (id 0) with one module (id 0) holding published lessons
1, 2 and the unpublished lesson 3; user 7 is enrolled; no progress yet. -/
def dbEx : Db :=
  ⟨[⟨0, 0⟩], [⟨1, 0, true⟩, ⟨2, 0, true⟩, ⟨3, 0, false⟩], [(7, 0)], []⟩

/-- One module of 100 lessons (ids 0-99); user 0 is enrolled and has
completed lessons 0-27. -/
def dbC1ex : Db :=
  ⟨[⟨0, 0⟩], (List.range 100).map (fun i => ⟨i, 0, true⟩), [(0, 0)],
   (List.range 28).map (fun i => ⟨0, i, true, some i⟩)⟩

/-- Shop store: course 1 costs 500, course 2 is free, course 3 is
unpublished; an earlier paid order 4 exists; user 7 is already
enrolled in course 2. -/
def sdbEx : ShopDb :=
  ⟨[⟨1, 500, false, true⟩, ⟨2, 300, true, true⟩, ⟨3, 100, false, false⟩],
   [⟨4, 9, "paid"⟩], [], [(7, 2)]⟩

/-! ## Claims -/

/-- C5: a user holding no EnrollmentRecord for the course owning the
target lesson gets the 403 Forbidden "not enrolled" response and the
store is returned unchanged: no ProgressRecord is created or modified. -/
theorem C5_not_enrolled_forbidden (db : Db) (u lid : Nat) (lesson : Lesson)
    (cp : String) (now : Nat)
    (hl : db.findLesson lid = some lesson)
    (he : db.enrolledFor u lesson = false) :
    MarkLessonCompletedView.handle db (some u) (some lid) cp now
        = (.forbidden "Вы не записаны на этот курс", db)
    ∧ (ToggleResponse.forbidden "Вы не записаны на этот курс").status = 403 := by
  constructor
  · rw [handle_some]
    unfold MarkLessonCompletedView.post
    simp [hl, he]
  · rfl

/-- C5 witness: user 8 holds no enrollment in `dbEx`. -/
theorem C5_witness :
    dbEx.findLesson 1 = some ⟨1, 0, true⟩
    ∧ dbEx.enrolledFor 8 ⟨1, 0, true⟩ = false
    ∧ MarkLessonCompletedView.handle dbEx (some 8) (some 1) "true" 10
        = (.forbidden "Вы не записаны на этот курс", dbEx) :=
  ⟨by decide, by decide,
   (C5_not_enrolled_forbidden dbEx 8 1 ⟨1, 0, true⟩ "true" 10 (by decide) (by decide)).1⟩

/-- C6: a lesson id that references no existing lesson yields the 404
NotFound response and the store is returned unchanged: no
ProgressRecord is created or changed. -/
theorem C6_unknown_lesson_not_found (db : Db) (u lid : Nat) (cp : String) (now : Nat)
    (hl : db.findLesson lid = none) :
    MarkLessonCompletedView.handle db (some u) (some lid) cp now = (.notFound, db)
    ∧ ToggleResponse.notFound.status = 404 := by
  constructor
  · rw [handle_some]
    unfold MarkLessonCompletedView.post
    simp [hl]
  · rfl

/-- C6 witness: `dbEx` has no lesson 99. -/
theorem C6_witness :
    dbEx.findLesson 99 = none
    ∧ MarkLessonCompletedView.handle dbEx (some 7) (some 99) "true" 10 = (.notFound, dbEx) :=
  ⟨by decide, (C6_unknown_lesson_not_found dbEx 7 99 "true" 10 (by decide)).1⟩

/-- C7 counterexample: an unauthenticated request to the endpoint is
answered by `LoginRequiredMixin` with a 302 redirect to the login
page, not with the claimed Forbidden/401-equivalent error response
(the handler's own 403 branch is unreachable); the store is unchanged. -/
theorem C7_counterexample :
    MarkLessonCompletedView.handle dbEx none (some 1) "true" 10 = (.redirectToLogin, dbEx)
    ∧ (MarkLessonCompletedView.handle dbEx none (some 1) "true" 10).1.status = 302
    ∧ (MarkLessonCompletedView.handle dbEx none (some 1) "true" 10).1
        ≠ .forbidden "Требуется авторизация"
    ∧ (MarkLessonCompletedView.handle dbEx none (some 1) "true" 10).1.status ≠ 401
    ∧ (MarkLessonCompletedView.handle dbEx none (some 1) "true" 10).1.status ≠ 403 := by
  refine ⟨rfl, rfl, ?_, ?_, ?_⟩ <;> decide

/-- C7 (amended): a request with no authenticated user context never
reaches the handler; the login-required wrapper answers it with a
redirect to the login page (HTTP 302, not 401/403) and persists no
ProgressRecord: the store comes back unchanged. -/
theorem C7_unauthenticated_redirects (db : Db) (lo : Option Nat) (cp : String) (now : Nat) :
    MarkLessonCompletedView.handle db none lo cp now = (.redirectToLogin, db)
    ∧ (MarkLessonCompletedView.handle db none lo cp now).1.status = 302 :=
  ⟨rfl, rfl⟩

/-- C2: toggling the same lesson to completed twice in a row leaves the
same `completed_at` as toggling it once — `Progress.save` stamps the
timestamp only when it was previously unset, so the repeated
true-to-true toggle does not refresh it. -/
theorem C2_repeat_true_keeps_timestamp (db : Db) (u lid t1 t2 : Nat) (lesson : Lesson)
    (hl : db.findLesson lid = some lesson) (he : db.enrolledFor u lesson = true) :
    (((MarkLessonCompletedView.handle
        (MarkLessonCompletedView.handle db (some u) (some lid) "true" t1).2
        (some u) (some lid) "true" t2).2).findProgress u lid).map Progress.completed_at
      = (((MarkLessonCompletedView.handle db (some u) (some lid) "true" t1).2).findProgress u lid).map
          Progress.completed_at := by
  have hb : ("true" == "true") = true := rfl
  have h1 : (MarkLessonCompletedView.handle db (some u) (some lid) "true" t1).2
      = db.toggleStore u lid true t1 := by
    rw [handle_some, post_success db u lid lesson "true" t1 hl he, hb]
  have hl1 : (db.toggleStore u lid true t1).findLesson lid = some lesson := by
    rw [findLesson_toggleStore]; exact hl
  have he1 : (db.toggleStore u lid true t1).enrolledFor u lesson = true := by
    rw [enrolledFor_toggleStore]; exact he
  have h2 : (MarkLessonCompletedView.handle (db.toggleStore u lid true t1)
        (some u) (some lid) "true" t2).2
      = (db.toggleStore u lid true t1).toggleStore u lid true t2 := by
    rw [handle_some, post_success _ u lid lesson "true" t2 hl1 he1, hb]
  have hfind1 : (db.toggleStore u lid true t1).findProgress u lid
      = some (db.toggledProgress u lid true t1) :=
    findProgress_toggleStore db u lid true t1
  have hrc : (db.toggledProgress u lid true t1).completed = true :=
    toggledProgress_completed db u lid true t1
  have hra : (db.toggledProgress u lid true t1).completed_at.isSome = true := by
    rw [toggledProgress_invariant, toggledProgress_completed]
  have hr2 : (db.toggleStore u lid true t1).toggledProgress u lid true t2
      = db.toggledProgress u lid true t1 := by
    unfold Db.toggledProgress
    rw [hfind1]
    show Progress.save t2 { db.toggledProgress u lid true t1 with completed := true } = _
    rw [set_completed_true_of _ hrc]
    exact save_of_completed_some t2 _ hrc hra
  have hfind2 : ((db.toggleStore u lid true t1).toggleStore u lid true t2).findProgress u lid
      = some (db.toggledProgress u lid true t1) := by
    rw [findProgress_toggleStore, hr2]
  rw [h1, h2, hfind1, hfind2]

/-- C2 witness: in `dbEx`, marking lesson 1 complete at time 10 and
again at time 20 leaves the timestamp at 10. -/
theorem C2_witness :
    dbEx.findLesson 1 = some ⟨1, 0, true⟩
    ∧ dbEx.enrolledFor 7 ⟨1, 0, true⟩ = true
    ∧ (((MarkLessonCompletedView.handle
          (MarkLessonCompletedView.handle dbEx (some 7) (some 1) "true" 10).2
          (some 7) (some 1) "true" 20).2).findProgress 7 1).map Progress.completed_at
        = (((MarkLessonCompletedView.handle dbEx (some 7) (some 1) "true" 10).2).findProgress 7 1).map
            Progress.completed_at :=
  ⟨by decide, by decide,
   C2_repeat_true_keeps_timestamp dbEx 7 1 10 20 ⟨1, 0, true⟩ (by decide) (by decide)⟩

/-- C4: toggling to completed and then to not-completed leaves the
(user, lesson) ProgressRecord with `completed = false` and
`completed_at = none` — the false toggle clears the timestamp
unconditionally. -/
theorem C4_round_trip_clears (db : Db) (u lid t1 t2 : Nat) (lesson : Lesson)
    (hl : db.findLesson lid = some lesson) (he : db.enrolledFor u lesson = true) :
    ((MarkLessonCompletedView.handle
        (MarkLessonCompletedView.handle db (some u) (some lid) "true" t1).2
        (some u) (some lid) "false" t2).2).findProgress u lid
      = some ⟨u, lid, false, none⟩ := by
  have hb : ("true" == "true") = true := rfl
  have hb2 : ("false" == "true") = false := rfl
  have h1 : (MarkLessonCompletedView.handle db (some u) (some lid) "true" t1).2
      = db.toggleStore u lid true t1 := by
    rw [handle_some, post_success db u lid lesson "true" t1 hl he, hb]
  have hl1 : (db.toggleStore u lid true t1).findLesson lid = some lesson := by
    rw [findLesson_toggleStore]; exact hl
  have he1 : (db.toggleStore u lid true t1).enrolledFor u lesson = true := by
    rw [enrolledFor_toggleStore]; exact he
  have h2 : (MarkLessonCompletedView.handle (db.toggleStore u lid true t1)
        (some u) (some lid) "false" t2).2
      = (db.toggleStore u lid true t1).toggleStore u lid false t2 := by
    rw [handle_some, post_success _ u lid lesson "false" t2 hl1 he1, hb2]
  have hfind1 : (db.toggleStore u lid true t1).findProgress u lid
      = some (db.toggledProgress u lid true t1) :=
    findProgress_toggleStore db u lid true t1
  have hr2 : (db.toggleStore u lid true t1).toggledProgress u lid false t2
      = (⟨u, lid, false, none⟩ : Progress) := by
    unfold Db.toggledProgress
    rw [hfind1]
    show Progress.save t2 { db.toggledProgress u lid true t1 with completed := false } = _
    rw [save_of_not_completed t2 _ rfl, progress_clear,
      toggledProgress_user, toggledProgress_lesson]
  have hfind2 : ((db.toggleStore u lid true t1).toggleStore u lid false t2).findProgress u lid
      = some (⟨u, lid, false, none⟩ : Progress) := by
    rw [findProgress_toggleStore, hr2]
  rw [h1, h2, hfind2]

/-- C4 witness: lesson 1 of `dbEx` toggled true then false ends not
completed and unstamped. -/
theorem C4_witness :
    dbEx.findLesson 1 = some ⟨1, 0, true⟩
    ∧ dbEx.enrolledFor 7 ⟨1, 0, true⟩ = true
    ∧ ((MarkLessonCompletedView.handle
          (MarkLessonCompletedView.handle dbEx (some 7) (some 1) "true" 10).2
          (some 7) (some 1) "false" 20).2).findProgress 7 1
        = some ⟨7, 1, false, none⟩ :=
  ⟨by decide, by decide,
   C4_round_trip_clears dbEx 7 1 10 20 ⟨1, 0, true⟩ (by decide) (by decide)⟩

/-- C3: starting from a store with no progress rows, after any sequence
of requests to the toggle endpoint every ProgressRecord satisfies
`completed_at.isSome = completed` — the timestamp is set iff the row is
completed, on the create path and the update path alike. -/
theorem C3_completed_at_iff_completed (db0 : Db) (h0 : db0.progresses = [])
    (ops : List ToggleReq) : (applyToggles db0 ops).progressInv := by
  apply applyToggles_inv
  intro p hp
  rw [h0] at hp
  exact absurd hp (List.not_mem_nil p)

/-- C3 witness: a true toggle followed by a false toggle on `dbEx`. -/
theorem C3_witness :
    Db.progressInv (applyToggles dbEx
      [⟨some 7, some 1, "true", 10⟩, ⟨some 7, some 2, "true", 11⟩,
       ⟨some 7, some 1, "false", 12⟩]) :=
  C3_completed_at_iff_completed dbEx rfl _

/-- C1 counterexample: with 29 of 100 lessons completed the endpoint
reports a module (and course) percentage of 28, while exact integer
floor division gives `100 * 29 / 100 = 29` — the code's
binary64 evaluation of `int((29 / 100) * 100)` truncates
`28.999999999999996` down to 28. -/
theorem C1_counterexample :
    (MarkLessonCompletedView.handle dbC1ex (some 0) (some 28) "true" 50).1
        = .ok ⟨true, some 50, 28, 28, 29, 100, 29, 100, "Урок отмечен как пройденный"⟩
    ∧ ((MarkLessonCompletedView.handle dbC1ex (some 0) (some 28) "true" 50).2.moduleRollup 0 0)
        = (29, 100, 28)
    ∧ 100 * 29 / 100 = 29
    ∧ (28 : Nat) ≠ 29 := by
  refine ⟨rfl, rfl, by decide, by decide⟩

/-- C1 (amended): on a successful toggle the percentages in the
response (and in the roll-ups) equal the binary64 evaluation
`int((completed / total) * 100)` — `pyPct` — which is 0 when the total
is 0 and agrees with exact floor division on the 3-lesson example
(1 of 3 gives 33, never 34), but not universally: 29 of 100 gives 28
where exact floor division gives 29. -/
theorem C1_percentage_binary64 (db : Db) (u lid : Nat) (lesson : Lesson)
    (cp : String) (now : Nat)
    (hl : db.findLesson lid = some lesson) (he : db.enrolledFor u lesson = true) :
    ∃ pl db2, MarkLessonCompletedView.post db (some u) (some lid) cp now = (.ok pl, db2)
      ∧ pl.module_progress = pyPct pl.module_completed pl.module_total
      ∧ pl.course_progress = pyPct pl.course_completed pl.course_total
      ∧ pl.module_completed = db2.moduleCompleted u lesson.module
      ∧ pl.module_total = db2.moduleTotal lesson.module
      ∧ pyPct 1 3 = 33
      ∧ pyPct 29 100 = 28
      ∧ (∀ c, pyPct c 0 = 0) := by
  refine ⟨_, _, post_success db u lid lesson cp now hl he,
    rfl, rfl, rfl, rfl, by decide, by decide, fun c => rfl⟩

/-- C1 witness: the successful toggle of lesson 1 in `dbEx` carries
percentages computed by `pyPct`. -/
theorem C1_witness :
    dbEx.findLesson 1 = some ⟨1, 0, true⟩
    ∧ dbEx.enrolledFor 7 ⟨1, 0, true⟩ = true
    ∧ (MarkLessonCompletedView.post dbEx (some 7) (some 1) "true" 10).1.isOk = true := by
  obtain ⟨pl, db2, h1, -, -, -, -, -, -, -⟩ :=
    C1_percentage_binary64 dbEx 7 1 ⟨1, 0, true⟩ "true" 10 (by decide) (by decide)
  exact ⟨by decide, by decide, by rw [h1]; rfl⟩

/-- C8: the totals reported by the roll-ups count every lesson of the
module (resp. course), including unpublished ones — rewriting every
lesson's `is_published` flag never changes either denominator, and the
response's totals are the unrestricted lesson counts. -/
theorem C8_totals_ignore_published (db : Db) (f : Lesson → Bool) (u lid mid cid now : Nat)
    (cp : String) (lesson : Lesson)
    (hl : db.findLesson lid = some lesson) (he : db.enrolledFor u lesson = true) :
    ∃ pl db2, MarkLessonCompletedView.post db (some u) (some lid) cp now = (.ok pl, db2)
      ∧ pl.module_total = (db.lessons.filter (fun l => l.module == lesson.module)).length
      ∧ pl.course_total = (db.lessons.filter (fun l =>
          (db.findModule l.module).map (fun m => m.course)
            == some (db.lessonCourseId lesson))).length
      ∧ (db.setPublished f).moduleTotal mid = db.moduleTotal mid
      ∧ (db.setPublished f).courseTotal cid = db.courseTotal cid := by
  refine ⟨_, _, post_success db u lid lesson cp now hl he, ?_, ?_,
    moduleTotal_setPublished db f mid, courseTotal_setPublished db f cid⟩
  · show (db.toggleStore u lid (cp == "true") now).moduleTotal lesson.module = _
    unfold Db.moduleTotal
    rw [toggleStore_lessons]
  · show (db.toggleStore u lid (cp == "true") now).courseTotal (db.lessonCourseId lesson) = _
    unfold Db.courseTotal Db.findModule
    rw [toggleStore_lessons, toggleStore_modules]

/-- C8 witness: `dbEx` has the unpublished lesson 3; the module total
reported for module 0 is 3, and flipping all publish flags changes no
total. -/
theorem C8_witness :
    dbEx.findLesson 1 = some ⟨1, 0, true⟩
    ∧ (dbEx.setPublished (fun _ => false)).moduleTotal 0 = dbEx.moduleTotal 0
    ∧ dbEx.moduleTotal 0 = 3 := by
  obtain ⟨pl, db2, -, -, -, h4, -⟩ :=
    C8_totals_ignore_published dbEx (fun _ => false) 7 1 0 0 10 "true" ⟨1, 0, true⟩
      (by decide) (by decide)
  exact ⟨by decide, h4, by decide⟩

/-- C9: when the cart yields a non-empty list of published courses,
checkout creates exactly one Order, immediately marked paid; one
OrderItem per course, priced at zero for free courses and at the
course's current price otherwise; an EnrollmentRecord for the user and
every course in the order, found idempotently when it already exists;
and the cart is cleared. -/
theorem C9_checkout (db : ShopDb) (cart : List Nat) (u : Nat)
    (hne : getCartCourses db cart ≠ []) :
    (CheckoutView.post db cart u).1 = .redirectOrdersHistory (newOrderId db)
    ∧ (CheckoutView.post db cart u).2.1.orders = db.orders ++ [⟨newOrderId db, u, "paid"⟩]
    ∧ (CheckoutView.post db cart u).2.1.items
        = db.items ++ (getCartCourses db cart).map
            (fun c => ⟨newOrderId db, c.id, if c.is_free then 0 else c.price⟩)
    ∧ (∀ c ∈ getCartCourses db cart,
        (u, c.id) ∈ (CheckoutView.post db cart u).2.1.enrollments)
    ∧ (∀ c ∈ getCartCourses db cart,
        pairCount (CheckoutView.post db cart u).2.1.enrollments (u, c.id)
          = max 1 (pairCount db.enrollments (u, c.id)))
    ∧ (CheckoutView.post db cart u).2.2 = [] := by
  rw [checkout_post_of_ne db cart u hne]
  refine ⟨rfl, ?_, ?_, ?_, ?_, rfl⟩
  · rw [foldl_checkout_orders]
  · rw [foldl_checkout_items]
  · intro c hc
    apply mem_of_pairCount_pos
    rw [foldl_checkout_count, if_pos ⟨c, hc, rfl⟩]
    exact le_max_left 1 _
  · intro c hc
    rw [foldl_checkout_count, if_pos ⟨c, hc, rfl⟩]

/-- C9 witness: checking out the cart [1, 2, 3, 99] in `sdbEx`
produces the paid order 5. -/
theorem C9_witness :
    getCartCourses sdbEx [1, 2, 3, 99] ≠ []
    ∧ (CheckoutView.post sdbEx [1, 2, 3, 99] 7).2.1.orders
        = sdbEx.orders ++ [⟨5, 7, "paid"⟩] := by
  have h := (C9_checkout sdbEx [1, 2, 3, 99] 7 (by decide)).2.1
  rw [(rfl : newOrderId sdbEx = 5)] at h
  exact ⟨by decide, h⟩

/-- C10: checkout reads only currently published courses from the
cart — every course read is a published catalog course whose id the
cart holds; a cart id whose course is unpublished or nonexistent gets
no order line and no enrollment; and when no published course remains,
checkout is a warning redirect that changes nothing, the cart
included. -/
theorem C10_unpublished_excluded (db : ShopDb) (cart : List Nat) (u x : Nat)
    (hx : ∀ c ∈ db.courses, c.id = x → c.is_published = false) :
    (∀ c ∈ getCartCourses db cart, c ∈ db.courses ∧ c.is_published = true ∧ c.id ∈ cart)
    ∧ (CheckoutView.post db cart u).2.1.items.filter (fun it => it.course == x)
        = db.items.filter (fun it => it.course == x)
    ∧ pairCount (CheckoutView.post db cart u).2.1.enrollments (u, x)
        = pairCount db.enrollments (u, x)
    ∧ (getCartCourses db cart = [] →
        CheckoutView.post db cart u
          = (.redirectCartWithWarning "Ваша корзина пуста.", db, cart)) := by
  have hmem : ∀ c ∈ getCartCourses db cart,
      c ∈ db.courses ∧ c.is_published = true ∧ c.id ∈ cart := by
    intro c hc
    have h := List.mem_filter.mp hc
    have h2 := h.2
    simp only [Bool.and_eq_true] at h2
    exact ⟨h.1, h2.2, by simpa using h2.1⟩
  have hxid : ∀ c ∈ getCartCourses db cart, c.id ≠ x := by
    intro c hc he
    have hm := hmem c hc
    have hf := hx c hm.1 he
    rw [hm.2.1] at hf
    exact Bool.noConfusion hf
  by_cases hie : getCartCourses db cart = []
  · rw [checkout_post_of_empty db cart u hie]
    exact ⟨hmem, rfl, rfl, fun _ => rfl⟩
  · rw [checkout_post_of_ne db cart u hie]
    refine ⟨hmem, ?_, ?_, fun h => absurd h hie⟩
    · rw [foldl_checkout_items, List.filter_append]
      have hnil : ((getCartCourses db cart).map
          (fun c => (⟨newOrderId db, c.id, if c.is_free then 0 else c.price⟩ : OrderItem))).filter
            (fun it => it.course == x) = [] := by
        apply List.filter_eq_nil_iff.mpr
        intro it hit
        rcases List.mem_map.mp hit with ⟨c, hc, rfl⟩
        intro hcx
        exact hxid c hc (by simpa using hcx)
      rw [hnil, List.append_nil]
    · rw [foldl_checkout_count, if_neg ?_]
      rintro ⟨c, hc, he⟩
      have : x = c.id := (Prod.mk.injEq u x u c.id).mp he |>.2
      exact hxid c hc this.symm

/-- C10 witness: course 3 of `sdbEx` is unpublished; the checkout of a
cart holding it leaves the (7, 3) enrollment count unchanged. -/
theorem C10_witness :
    (sdbEx.courses.filter (fun c => c.id == 3 && c.is_published)).length = 0
    ∧ pairCount (CheckoutView.post sdbEx [1, 2, 3, 99] 7).2.1.enrollments (7, 3)
        = pairCount sdbEx.enrollments (7, 3) :=
  ⟨by decide, (C10_unpublished_excluded sdbEx [1, 2, 3, 99] 7 3 (by decide)).2.2.1⟩

end EdPro
